import Mathlib

/-
Verification of the record-to-graph normalization engine of the
MDS-SDM-AcademicGraphs repository (src/prepare.py), as a shallow embedding.

The embedding models:
- decoded JSON records as an inductive `JValue`, with Python dict indexing
  (`paper["k"]`, raising KeyError / TypeError) and `dict.get` as
  `Except`-valued operations;
- `BatchedWriter` (prepare.py lines 20-61) as a state machine over the list
  of lines written to each physical file;
- the papers branch of the `__main__` driver (prepare.py lines 119-378) as a
  fold `processPaper` over a `BuilderState` holding, per output table, the
  list of rows handed to its csv.DictWriter, plus the `unique_*` dedup sets
  and the warnings emitted through the logger.
-/

inductive JValue where
  | null : JValue
  | bool (b : Bool) : JValue
  | num (n : Int) : JValue
  | str (s : String) : JValue
  | arr (xs : List JValue) : JValue
  | obj (fields : List (String × JValue)) : JValue

mutual

def JValue.beq : JValue → JValue → Bool
  | .null, .null => true
  | .bool a, .bool b => a == b
  | .num a, .num b => a == b
  | .str a, .str b => a == b
  | .arr xs, .arr ys => JValue.beqList xs ys
  | .obj xs, .obj ys => JValue.beqObj xs ys
  | _, _ => false

def JValue.beqList : List JValue → List JValue → Bool
  | [], [] => true
  | x :: xs, y :: ys => JValue.beq x y && JValue.beqList xs ys
  | _, _ => false

def JValue.beqObj : List (String × JValue) → List (String × JValue) → Bool
  | [], [] => true
  | (k, v) :: xs, (l, w) :: ys => k == l && JValue.beq v w && JValue.beqObj xs ys
  | _, _ => false

end

mutual

theorem JValue.beq_iff : ∀ (a b : JValue), JValue.beq a b = true ↔ a = b
  | .null, b => by cases b <;> simp [JValue.beq]
  | .bool a, b => by cases b <;> simp [JValue.beq]
  | .num a, b => by cases b <;> simp [JValue.beq]
  | .str a, b => by cases b <;> simp [JValue.beq]
  | .arr xs, b => by
      cases b <;> simp [JValue.beq]
      exact JValue.beqList_iff xs _
  | .obj xs, b => by
      cases b <;> simp [JValue.beq]
      exact JValue.beqObj_iff xs _

theorem JValue.beqList_iff : ∀ (xs ys : List JValue), JValue.beqList xs ys = true ↔ xs = ys
  | [], ys => by cases ys <;> simp [JValue.beqList]
  | x :: xs, ys => by
      cases ys <;> simp [JValue.beqList]
      rw [JValue.beq_iff, JValue.beqList_iff]

theorem JValue.beqObj_iff : ∀ (xs ys : List (String × JValue)),
    JValue.beqObj xs ys = true ↔ xs = ys
  | [], ys => by cases ys <;> simp [JValue.beqObj]
  | (k, v) :: xs, ys => by
      cases ys with
      | nil => simp [JValue.beqObj]
      | cons y ys =>
        obtain ⟨l, w⟩ := y
        simp only [JValue.beqObj, Bool.and_eq_true, beq_iff_eq, List.cons.injEq, Prod.mk.injEq]
        rw [JValue.beq_iff, JValue.beqObj_iff]

end

instance : DecidableEq JValue := fun a b => decidable_of_iff _ (JValue.beq_iff a b)

/-- Python exceptions that the engine can raise while processing a record. -/
inductive PyErr where
  | keyError (k : String)
  | typeError (m : String)
  | indexError (m : String)
  | valueError (m : String)
deriving DecidableEq

instance {ε α : Type} [DecidableEq ε] [DecidableEq α] : DecidableEq (Except ε α)
  | .ok a, .ok b => decidable_of_iff (a = b) (by simp)
  | .ok _, .error _ => .isFalse (by simp)
  | .error _, .ok _ => .isFalse (by simp)
  | .error a, .error b => decidable_of_iff (a = b) (by simp)

/-- Python subscript access `v[k]` on a decoded JSON value: KeyError when the
key is missing from a dict, TypeError when the value is not a dict. -/
def JValue.index (v : JValue) (k : String) : Except PyErr JValue :=
  match v with
  | .obj fields =>
    match fields.lookup k with
    | some x => .ok x
    | none => .error (.keyError k)
  | .null => .error (.typeError "NoneType object is not subscriptable")
  | _ => .error (.typeError "value is not subscriptable")

/-- Python `v.get(k, d)` on a decoded JSON value (TypeError when `v` is not a
dict); `v.get(k)` is `v.getD k .null`. -/
def JValue.getD (v : JValue) (k : String) (d : JValue) : Except PyErr JValue :=
  match v with
  | .obj fields =>
    match fields.lookup k with
    | some x => .ok x
    | none => .ok d
  | _ => .error (.typeError "value has no attribute get")

/-- Python iteration `for x in v`: the elements of a JSON array, TypeError on
anything the engine would fail to iterate (in particular None). -/
def JValue.asList (v : JValue) : Except PyErr (List JValue) :=
  match v with
  | .arr xs => .ok xs
  | .null => .error (.typeError "NoneType object is not iterable")
  | _ => .error (.typeError "value is not iterable")

mutual

/-- Model of `json.dumps` on decoded JSON values. -/
def jdumps : JValue → String
  | .null => "null"
  | .bool true => "true"
  | .bool false => "false"
  | .num n => toString n
  | .str s => "\"" ++ s ++ "\""
  | .arr xs => "[" ++ String.intercalate ", " (jdumpsList xs) ++ "]"
  | .obj fields => "\x7b" ++ String.intercalate ", " (jdumpsObj fields) ++ "\x7d"

def jdumpsList : List JValue → List String
  | [] => []
  | x :: xs => jdumps x :: jdumpsList xs

def jdumpsObj : List (String × JValue) → List String
  | [] => []
  | (k, v) :: xs => ("\"" ++ k ++ "\": " ++ jdumps v) :: jdumpsObj xs

end

/-! ## BatchedWriter (prepare.py lines 20-61)

The on-disk content is modelled as `closedFiles` (files already rolled over,
in order) and `current` (the lines of the currently open file); each
`csv.DictWriter` row, the header row included, reaches the writer as one
`write` call. -/

structure BatchedWriter where
  batchSize : Nat
  batchNumber : Nat
  currentBatchSize : Nat
  isClosed : Bool
  closedFiles : List (List String)
  current : List String
deriving DecidableEq

/-- Constructor `BatchedWriter(file, batch_size)`: batch number 1, an empty
current batch, nothing rolled over yet. -/
def BatchedWriter.init (batchSize : Nat) : BatchedWriter :=
  { batchSize := batchSize, batchNumber := 1, currentBatchSize := 0,
    isClosed := false, closedFiles := [], current := [] }

/-- `BatchedWriter.write` (lines 39-48): ValueError on a closed writer;
rollover to a fresh file *before* writing once the current batch has reached
`batch_size`; then append the line and bump the counter. -/
def BatchedWriter.write (w : BatchedWriter) (line : String) : Except PyErr BatchedWriter :=
  if w.isClosed then .error (.valueError "I/O operation on closed file")
  else if w.currentBatchSize ≥ w.batchSize then
    .ok { w with closedFiles := w.closedFiles ++ [w.current],
                 batchNumber := w.batchNumber + 1,
                 current := [line], currentBatchSize := 1 }
  else
    .ok { w with current := w.current ++ [line],
                 currentBatchSize := w.currentBatchSize + 1 }

/-- `BatchedWriter.close` (lines 57-61): a no-op when already closed,
otherwise mark closed (the current file stays on disk as written). -/
def BatchedWriter.close (w : BatchedWriter) : BatchedWriter :=
  if w.isClosed then w else { w with isClosed := true }

/-- Write a sequence of lines (`writelines`, lines 50-52). -/
def BatchedWriter.writeAll (w : BatchedWriter) : List String → Except PyErr BatchedWriter
  | [] => .ok w
  | l :: ls => do
      let w' ← w.write l
      w'.writeAll ls

/-- All physical files produced so far, the currently open one last. -/
def BatchedWriter.allFiles (w : BatchedWriter) : List (List String) :=
  w.closedFiles ++ [w.current]

/-! ## GraphBuilder state (prepare.py lines 119-245)

One list of rows per output table (a row is the association list handed to
`csv.DictWriter.writerow`, in the fieldnames order of that table), plus the
`unique_*` dedup sets (modelled as lists in insertion order, membership-checked
before every add) and the warnings emitted through the logger. -/

/-- Per-record warnings the papers branch can log; the only one in the source
is the null-author-id warning of prepare.py line 268. -/
inductive Warning where
  | nullAuthor (author : JValue)
deriving DecidableEq

/-- One row handed to a csv.DictWriter: field name / value pairs. -/
abbrev Row := List (String × JValue)

structure BuilderState where
  papersRows : List Row
  fieldsofstudyRows : List Row
  proceedingsRows : List Row
  journalvolumesRows : List Row
  journalsRows : List Row
  workshopsRows : List Row
  conferencesRows : List Row
  citiesRows : List Row
  authorsRows : List Row
  organizationsRows : List Row
  hasfieldofstudyRows : List Row
  wroteRows : List Row
  mainauthorRows : List Row
  isaffiliatedwithRows : List Row
  ispublishedinjournalRows : List Row
  ispublishedinproceedingsRows : List Row
  iseditionofjournalRows : List Row
  iseditionofconferenceRows : List Row
  iseditionofworkshopRows : List Row
  isheldinRows : List Row
  uniqueFieldsOfStudy : List JValue
  uniqueProceedingsIds : List (JValue × JValue)
  uniqueJournalVolumeIds : List (JValue × JValue)
  uniqueJournalIds : List JValue
  uniqueWorkshopIds : List JValue
  uniqueConferenceIds : List JValue
  uniqueCityNames : List JValue
  uniqueAuthorIds : List JValue
  uniqueOrganizationNames : List JValue
  warnings : List Warning
deriving DecidableEq

/-- State at the start of the papers branch: every table empty (only its
header written), every dedup set empty, no warnings. -/
def initState : BuilderState :=
  { papersRows := [], fieldsofstudyRows := [], proceedingsRows := [],
    journalvolumesRows := [], journalsRows := [], workshopsRows := [],
    conferencesRows := [], citiesRows := [], authorsRows := [],
    organizationsRows := [], hasfieldofstudyRows := [], wroteRows := [],
    mainauthorRows := [], isaffiliatedwithRows := [],
    ispublishedinjournalRows := [], ispublishedinproceedingsRows := [],
    iseditionofjournalRows := [], iseditionofconferenceRows := [],
    iseditionofworkshopRows := [], isheldinRows := [],
    uniqueFieldsOfStudy := [], uniqueProceedingsIds := [],
    uniqueJournalVolumeIds := [], uniqueJournalIds := [],
    uniqueWorkshopIds := [], uniqueConferenceIds := [], uniqueCityNames := [],
    uniqueAuthorIds := [], uniqueOrganizationNames := [], warnings := [] }

/-- Body of the fields-of-study loop (prepare.py lines 261-265): emit the
FieldOfStudy node if unseen, always emit the HasFieldOfStudy edge. -/
def processFos (pid : JValue) (st : BuilderState) (fos : JValue) : BuilderState :=
  let st :=
    if fos ∈ st.uniqueFieldsOfStudy then st
    else { st with fieldsofstudyRows := st.fieldsofstudyRows ++ [[("name", fos)]],
                   uniqueFieldsOfStudy := st.uniqueFieldsOfStudy ++ [fos] }
  { st with hasfieldofstudyRows :=
      st.hasfieldofstudyRows ++ [[("paperID", pid), ("fieldOfStudy", fos)]] }

/-- Body of the affiliations loop (prepare.py lines 282-286): emit the
Organization node if unseen, always emit the IsAffiliatedWith edge. -/
def processAffiliation (aid : JValue) (st : BuilderState) (aff : JValue) : BuilderState :=
  let st :=
    if aff ∈ st.uniqueOrganizationNames then st
    else { st with organizationsRows := st.organizationsRows ++ [[("name", aff)]],
                   uniqueOrganizationNames := st.uniqueOrganizationNames ++ [aff] }
  { st with isaffiliatedwithRows :=
      st.isaffiliatedwithRows ++ [[("authorID", aid), ("organization", aff)]] }

/-- Body of the authors loop (prepare.py lines 266-286): warn and skip on a
null author id; otherwise emit the Author node if unseen, the Wrote edge, and
process the affiliations. -/
def processAuthor (pid : JValue) (st : BuilderState) (author : JValue) :
    Except PyErr BuilderState :=
  author.index "authorId" >>= fun aid =>
  if aid = JValue.null then
    pure { st with warnings := st.warnings ++ [Warning.nullAuthor author] }
  else
    (if aid ∈ st.uniqueAuthorIds then pure st
     else
       author.index "url" >>= fun aurl =>
       author.index "name" >>= fun aname =>
       author.getD "homepage" .null >>= fun ahome =>
       author.getD "hIndex" .null >>= fun ahi =>
       pure { st with
         authorsRows := st.authorsRows ++
           [[("authorID", aid), ("url", aurl), ("name", aname),
             ("homepage", ahome), ("hIndex", ahi)]],
         uniqueAuthorIds := st.uniqueAuthorIds ++ [aid] }) >>= fun st1 =>
    author.index "affiliations" >>= fun affv =>
    affv.asList >>= fun affs =>
    pure (affs.foldl (processAffiliation aid)
      { st1 with wroteRows := st1.wroteRows ++ [[("paperID", pid), ("authorID", aid)]] })

/-- The authors loop itself, left to right over the author list. -/
def processAuthorList (pid : JValue) (st : BuilderState) :
    List JValue → Except PyErr BuilderState
  | [] => .ok st
  | a :: rest => do
      let st' ← processAuthor pid st a
      processAuthorList pid st' rest

/-- Journal branch of the venue handling (prepare.py lines 292-322). -/
def processJournalVenue (paper pid year venue : JValue) (st : BuilderState) :
    Except PyErr BuilderState :=
  venue.index "id" >>= fun vid =>
  (if vid ∈ st.uniqueJournalIds then pure st
   else
     venue.index "name" >>= fun vname =>
     venue.getD "url" .null >>= fun vurl =>
     venue.index "alternate_names" >>= fun alts =>
     pure { st with
       journalsRows := st.journalsRows ++
         [[("journalID", vid), ("name", vname), ("url", vurl),
           ("alternateNames", JValue.str (jdumps alts))]],
       uniqueJournalIds := st.uniqueJournalIds ++ [vid] }) >>= fun st1 =>
  paper.index "journal" >>= fun journal =>
  journal.index "volume" >>= fun vol =>
  (if (vid, vol) ∈ st1.uniqueJournalVolumeIds then pure st1
   else
     pure { st1 with
       journalvolumesRows := st1.journalvolumesRows ++
         [[("journalVolumeID", JValue.str (jdumps (.arr [vid, vol]))),
           ("year", year), ("volume", vol)]],
       uniqueJournalVolumeIds := st1.uniqueJournalVolumeIds ++ [(vid, vol)],
       iseditionofjournalRows := st1.iseditionofjournalRows ++
         [[("journalVolumeID", JValue.str (jdumps (.arr [vid, vol]))),
           ("journalID", vid)]] }) >>= fun st2 =>
  paper.index "journal" >>= fun journal2 =>
  journal2.getD "pages" .null >>= fun pages =>
  pure { st2 with
    ispublishedinjournalRows := st2.ispublishedinjournalRows ++
      [[("paperID", pid),
        ("journalVolumeID", JValue.str (jdumps (.arr [vid, vol]))),
        ("pages", pages)]] }

/-- Conference branch of the venue handling (prepare.py lines 323-349); on a
first-seen `(venueId, year)` pair the IsHeldIn edge carries a None city. -/
def processConferenceVenue (paper pid year venue : JValue) (st : BuilderState) :
    Except PyErr BuilderState :=
  venue.index "id" >>= fun vid =>
  (if vid ∈ st.uniqueConferenceIds then pure st
   else
     venue.index "name" >>= fun vname =>
     venue.getD "url" .null >>= fun vurl =>
     venue.index "alternate_names" >>= fun alts =>
     pure { st with
       conferencesRows := st.conferencesRows ++
         [[("conferenceID", vid), ("name", vname), ("url", vurl),
           ("alternateNames", JValue.str (jdumps alts))]],
       uniqueConferenceIds := st.uniqueConferenceIds ++ [vid] }) >>= fun st1 =>
  (if (vid, year) ∈ st1.uniqueProceedingsIds then pure st1
   else
     pure { st1 with
       proceedingsRows := st1.proceedingsRows ++
         [[("proceedingsID", JValue.str (jdumps (.arr [vid, year]))), ("year", year)]],
       uniqueProceedingsIds := st1.uniqueProceedingsIds ++ [(vid, year)],
       iseditionofconferenceRows := st1.iseditionofconferenceRows ++
         [[("proceedingsID", JValue.str (jdumps (.arr [vid, year]))),
           ("conferenceID", vid)]],
       isheldinRows := st1.isheldinRows ++
         [[("proceedingsID", JValue.str (jdumps (.arr [vid, year]))),
           ("city", JValue.null)]] }) >>= fun st2 =>
  paper.getD "journal" (JValue.obj []) >>= fun jdef =>
  jdef.getD "pages" .null >>= fun pages =>
  pure { st2 with
    ispublishedinproceedingsRows := st2.ispublishedinproceedingsRows ++
      [[("paperID", pid),
        ("proceedingsID", JValue.str (jdumps (.arr [vid, year]))),
        ("pages", pages)]] }

/-- Workshop branch of the venue handling (prepare.py lines 350-378); on a
first-seen `(venueId, year)` pair the IsHeldIn edge city is read from
`paper["journal"]["city"]`. -/
def processWorkshopVenue (paper pid year venue : JValue) (st : BuilderState) :
    Except PyErr BuilderState :=
  venue.index "id" >>= fun vid =>
  (if vid ∈ st.uniqueWorkshopIds then pure st
   else
     venue.index "name" >>= fun vname =>
     venue.getD "url" .null >>= fun vurl =>
     venue.index "alternate_names" >>= fun alts =>
     pure { st with
       workshopsRows := st.workshopsRows ++
         [[("workshopID", vid), ("name", vname), ("url", vurl),
           ("alternateNames", JValue.str (jdumps alts))]],
       uniqueWorkshopIds := st.uniqueWorkshopIds ++ [vid] }) >>= fun st1 =>
  (if (vid, year) ∈ st1.uniqueProceedingsIds then pure st1
   else
     paper.index "journal" >>= fun journal =>
     journal.index "city" >>= fun city =>
     pure { st1 with
       proceedingsRows := st1.proceedingsRows ++
         [[("proceedingsID", JValue.str (jdumps (.arr [vid, year]))), ("year", year)]],
       uniqueProceedingsIds := st1.uniqueProceedingsIds ++ [(vid, year)],
       iseditionofworkshopRows := st1.iseditionofworkshopRows ++
         [[("proceedingsID", JValue.str (jdumps (.arr [vid, year]))),
           ("workshopID", vid)]],
       isheldinRows := st1.isheldinRows ++
         [[("proceedingsID", JValue.str (jdumps (.arr [vid, year]))),
           ("city", city)]] }) >>= fun st2 =>
  paper.getD "journal" (JValue.obj []) >>= fun jdef =>
  jdef.getD "pages" .null >>= fun pages =>
  pure { st2 with
    ispublishedinproceedingsRows := st2.ispublishedinproceedingsRows ++
      [[("paperID", pid),
        ("proceedingsID", JValue.str (jdumps (.arr [vid, year]))),
        ("pages", pages)]] }

/-- Venue dispatch (prepare.py lines 291-378): three independent equality
tests on `venue["type"]`; none of them matching leaves the state untouched
(no venue rows, and also no warning in the source). -/
def processVenue (paper pid year venue : JValue) (st : BuilderState) :
    Except PyErr BuilderState :=
  venue.index "type" >>= fun vtype =>
  (if vtype = JValue.str "journal"
    then processJournalVenue paper pid year venue st else pure st) >>= fun st1 =>
  (if vtype = JValue.str "conference"
    then processConferenceVenue paper pid year venue st1 else pure st1) >>= fun st2 =>
  (if vtype = JValue.str "workshop"
    then processWorkshopVenue paper pid year venue st2 else pure st2)

/-- One iteration of the papers loop (prepare.py lines 246-378): the
Publication row, the fields-of-study loop, the authors loop, the MainAuthor
edge to the first entry of the (unfiltered) author list, then the venue
branches. -/
def processPaper (st : BuilderState) (paper : JValue) : Except PyErr BuilderState :=
  paper.index "paperId" >>= fun pid =>
  paper.index "url" >>= fun purl =>
  paper.index "title" >>= fun ptitle =>
  paper.index "abstract" >>= fun pabstract =>
  paper.index "year" >>= fun pyear =>
  paper.index "isOpenAccess" >>= fun popen =>
  paper.getD "openAccessPdfUrl" .null >>= fun ppdf =>
  paper.index "publicationTypes" >>= fun ptypes =>
  paper.getD "embedding" .null >>= fun pembed =>
  paper.getD "tldr" .null >>= fun ptldr =>
  paper.index "fieldsOfStudy" >>= fun fosv =>
  fosv.asList >>= fun fosList =>
  paper.index "authors" >>= fun authv =>
  authv.asList >>= fun auths =>
  processAuthorList pid
    (fosList.foldl (processFos pid)
      { st with
        papersRows := st.papersRows ++
          [[("paperID", pid), ("url", purl), ("title", ptitle),
            ("abstract", pabstract), ("year", pyear), ("isOpenAccess", popen),
            ("openAccessPDFUrl", ppdf), ("publicationTypes", ptypes),
            ("embedding", JValue.str (jdumps pembed)), ("tldr", ptldr)]] })
    auths >>= fun st2 =>
  (match auths with
    | [] => Except.error (PyErr.indexError "list index out of range")
    | mainAuthor :: _ =>
        mainAuthor.index "authorId" >>= fun maid =>
        pure { st2 with mainauthorRows := st2.mainauthorRows ++
          [[("paperID", pid), ("authorID", maid)]] }) >>= fun st3 =>
  paper.index "publicationVenue" >>= fun venue =>
  processVenue paper pid pyear venue st3

/-- The whole papers loop: left fold of `processPaper` over the record
stream; the first uncaught exception aborts the run. -/
def processPapers (st : BuilderState) : List JValue → Except PyErr BuilderState
  | [] => .ok st
  | p :: ps => do
      let st' ← processPaper st p
      processPapers st' ps

/-! ## BatchedWriter invariant -/

/-- Running invariant of a batched writer with batch size `N`: the counter
tracks the current file length, the current file never exceeds `N` lines, and
every rolled-over file holds exactly `N` lines. -/
def BatchedWriter.Inv (N : Nat) (w : BatchedWriter) : Prop :=
  w.batchSize = N ∧ w.currentBatchSize = w.current.length ∧
  w.current.length ≤ N ∧ ∀ f ∈ w.closedFiles, f.length = N

/-! ## Concrete records used to settle claims on specific inputs -/

/-- A record whose single author entry has a null author id (all required
fields present, venue of an unhandled type). -/
def nullAuthorPaper : JValue := .obj [
  ("paperId", .str "P1"), ("url", .str "u"), ("title", .str "T"),
  ("abstract", .null), ("year", .num 2024), ("isOpenAccess", .bool true),
  ("publicationTypes", .null), ("fieldsOfStudy", .arr []),
  ("authors", .arr [.obj [("authorId", .null), ("name", .str "Anon")]]),
  ("publicationVenue", .obj [("type", .str "misc")])]

/-- A workshop-venue record whose journal sub-object carries a city. -/
def workshopPaper : JValue := .obj [
  ("paperId", .str "P2"), ("url", .null), ("title", .null),
  ("abstract", .null), ("year", .num 2024), ("isOpenAccess", .bool false),
  ("publicationTypes", .null), ("fieldsOfStudy", .arr []),
  ("authors", .arr [.obj [("authorId", .str "A1"), ("url", .null),
    ("name", .str "Ada"), ("affiliations", .arr [])]]),
  ("publicationVenue", .obj [("type", .str "workshop"), ("id", .str "W1"),
    ("name", .str "WS"), ("alternate_names", .arr [])]),
  ("journal", .obj [("city", .str "Barcelona")])]

/-- A complete record with one field of study, one valid author with one
affiliation, and a venue of an unhandled type. -/
def plainPaper : JValue := .obj [
  ("paperId", .str "P1"), ("url", .str "u"), ("title", .str "T"),
  ("abstract", .null), ("year", .num 2024), ("isOpenAccess", .bool true),
  ("publicationTypes", .null), ("fieldsOfStudy", .arr [.str "CS"]),
  ("authors", .arr [.obj [("authorId", .str "A1"), ("url", .null),
    ("name", .str "Ada"), ("affiliations", .arr [.str "UPC"])]]),
  ("publicationVenue", .obj [("type", .str "symposium")])]

/-- A record that is complete except that the optional `abstract` field is
absent (not null). -/
def missingAbstractPaper : JValue := .obj [
  ("paperId", .str "P1"), ("url", .str "u"), ("title", .str "T"),
  ("year", .num 2024), ("isOpenAccess", .bool true),
  ("publicationTypes", .null), ("fieldsOfStudy", .arr []),
  ("authors", .arr [.obj [("authorId", .str "A1"), ("url", .null),
    ("name", .str "Ada"), ("affiliations", .arr [])]]),
  ("publicationVenue", .obj [("type", .str "misc")])]

/-- Result of processing `nullAuthorPaper` from the initial state. -/
def nullAuthorResult : BuilderState :=
  { initState with
    papersRows := [[("paperID", .str "P1"), ("url", .str "u"), ("title", .str "T"),
      ("abstract", .null), ("year", .num 2024), ("isOpenAccess", .bool true),
      ("openAccessPDFUrl", .null), ("publicationTypes", .null),
      ("embedding", .str "null"), ("tldr", .null)]],
    mainauthorRows := [[("paperID", .str "P1"), ("authorID", JValue.null)]],
    warnings := [.nullAuthor (.obj [("authorId", .null), ("name", .str "Anon")])] }

/-- A record that is complete except that `publicationVenue` is absent. -/
def missingVenuePaper : JValue := .obj [
  ("paperId", .str "P3"), ("url", .str "u"), ("title", .str "T"),
  ("abstract", .null), ("year", .num 2024), ("isOpenAccess", .bool true),
  ("publicationTypes", .null), ("fieldsOfStudy", .arr []),
  ("authors", .arr [.obj [("authorId", .str "A1"), ("url", .null),
    ("name", .str "Ada"), ("affiliations", .arr [])]])]

/-- Result of the conference venue branch on a first-seen venue and
proceedings key, starting from the initial state. -/
def confVenueResult : BuilderState :=
  { initState with
    conferencesRows := [[("conferenceID", .str "C1"), ("name", .str "Conf"),
      ("url", .null), ("alternateNames", .str "[]")]],
    uniqueConferenceIds := [.str "C1"],
    proceedingsRows := [[("proceedingsID", .str "[\"C1\", 2024]"), ("year", .num 2024)]],
    uniqueProceedingsIds := [(.str "C1", .num 2024)],
    iseditionofconferenceRows := [[("proceedingsID", .str "[\"C1\", 2024]"),
      ("conferenceID", .str "C1")]],
    isheldinRows := [[("proceedingsID", .str "[\"C1\", 2024]"), ("city", JValue.null)]],
    ispublishedinproceedingsRows := [[("paperID", .str "P9"),
      ("proceedingsID", .str "[\"C1\", 2024]"), ("pages", .null)]] }

/-- Result of the workshop venue branch on a first-seen venue and proceedings
key, starting from the initial state. -/
def wsVenueResult : BuilderState :=
  { initState with
    workshopsRows := [[("workshopID", .str "W1"), ("name", .str "WS"),
      ("url", .null), ("alternateNames", .str "[]")]],
    uniqueWorkshopIds := [.str "W1"],
    proceedingsRows := [[("proceedingsID", .str "[\"W1\", 2024]"), ("year", .num 2024)]],
    uniqueProceedingsIds := [(.str "W1", .num 2024)],
    iseditionofworkshopRows := [[("proceedingsID", .str "[\"W1\", 2024]"),
      ("workshopID", .str "W1")]],
    isheldinRows := [[("proceedingsID", .str "[\"W1\", 2024]"), ("city", .str "Barcelona")]],
    ispublishedinproceedingsRows := [[("paperID", .str "P9"),
      ("proceedingsID", .str "[\"W1\", 2024]"), ("pages", .null)]] }

/-! ## Deduplication invariant (claim C4) -/

/-- A dedup set / output table pair is well-formed when the set has no
duplicates and the rows' key column matches the set, in order: each first-seen
key produced exactly one node row. -/
def KeyedTable {κ : Type} (seen : List κ) (rows : List Row)
    (field : String) (ser : κ → JValue) : Prop :=
  seen.Nodup ∧ rows.map (fun r => r.lookup field) = seen.map (fun k => some (ser k))

/-- The engine's dedup invariant: every deduplicated node table (all node
types except Publication, whose rows are emitted once per record without any
dedup set) has exactly one row per first-seen key. -/
structure DedupInv (st : BuilderState) : Prop where
  fos : KeyedTable st.uniqueFieldsOfStudy st.fieldsofstudyRows "name" id
  authors : KeyedTable st.uniqueAuthorIds st.authorsRows "authorID" id
  orgs : KeyedTable st.uniqueOrganizationNames st.organizationsRows "name" id
  journals : KeyedTable st.uniqueJournalIds st.journalsRows "journalID" id
  conferences : KeyedTable st.uniqueConferenceIds st.conferencesRows "conferenceID" id
  workshops : KeyedTable st.uniqueWorkshopIds st.workshopsRows "workshopID" id
  proceedings : KeyedTable st.uniqueProceedingsIds st.proceedingsRows "proceedingsID"
    (fun k => JValue.str (jdumps (.arr [k.1, k.2])))
  journalvolumes : KeyedTable st.uniqueJournalVolumeIds st.journalvolumesRows
    "journalVolumeID" (fun k => JValue.str (jdumps (.arr [k.1, k.2])))

/-- Result of streaming `plainPaper` twice from the initial state: one row in
each deduplicated table, two rows in the Publication and edge tables. -/
def dupResult : BuilderState :=
  { initState with
    papersRows := [
      [("paperID", .str "P1"), ("url", .str "u"), ("title", .str "T"),
       ("abstract", .null), ("year", .num 2024), ("isOpenAccess", .bool true),
       ("openAccessPDFUrl", .null), ("publicationTypes", .null),
       ("embedding", .str "null"), ("tldr", .null)],
      [("paperID", .str "P1"), ("url", .str "u"), ("title", .str "T"),
       ("abstract", .null), ("year", .num 2024), ("isOpenAccess", .bool true),
       ("openAccessPDFUrl", .null), ("publicationTypes", .null),
       ("embedding", .str "null"), ("tldr", .null)]],
    fieldsofstudyRows := [[("name", .str "CS")]],
    authorsRows := [[("authorID", .str "A1"), ("url", .null),
      ("name", .str "Ada"), ("homepage", .null), ("hIndex", .null)]],
    organizationsRows := [[("name", .str "UPC")]],
    hasfieldofstudyRows := [
      [("paperID", .str "P1"), ("fieldOfStudy", .str "CS")],
      [("paperID", .str "P1"), ("fieldOfStudy", .str "CS")]],
    wroteRows := [
      [("paperID", .str "P1"), ("authorID", .str "A1")],
      [("paperID", .str "P1"), ("authorID", .str "A1")]],
    mainauthorRows := [
      [("paperID", .str "P1"), ("authorID", .str "A1")],
      [("paperID", .str "P1"), ("authorID", .str "A1")]],
    isaffiliatedwithRows := [
      [("authorID", .str "A1"), ("organization", .str "UPC")],
      [("authorID", .str "A1"), ("organization", .str "UPC")]],
    uniqueFieldsOfStudy := [.str "CS"],
    uniqueAuthorIds := [.str "A1"],
    uniqueOrganizationNames := [.str "UPC"] }

/-! ## Lemmas and theorems -/

theorem ebind_ok {α β : Type} (a : α) (f : α → Except PyErr β) :
    (Except.ok a >>= f) = f a := rfl

theorem ebind_err {α β : Type} (e : PyErr) (f : α → Except PyErr β) :
    ((Except.error e : Except PyErr α) >>= f) = Except.error e := rfl

theorem epure_eq_ok {α : Type} (a : α) : (pure a : Except PyErr α) = Except.ok a := rfl

theorem ebind_ok_iff {α β : Type} {x : Except PyErr α} {f : α → Except PyErr β} {b : β} :
    (x >>= f) = .ok b ↔ ∃ a, x = .ok a ∧ f a = .ok b := by
  cases x with
  | ok a => simp [ebind_ok]
  | error e => simp [ebind_err]

theorem BatchedWriter.inv_init (N : Nat) : (BatchedWriter.init N).Inv N := by
  refine ⟨rfl, rfl, Nat.zero_le _, ?_⟩
  intro f hf
  simp [BatchedWriter.init] at hf

theorem BatchedWriter.inv_write {N : Nat} {w w' : BatchedWriter} {line : String}
    (hN : 1 ≤ N) (hw : w.Inv N) (h : w.write line = .ok w') : w'.Inv N := by
  obtain ⟨hbs, hcnt, hle, hfiles⟩ := hw
  unfold BatchedWriter.write at h
  split at h
  · cases h
  · split at h
    · rename_i hroll
      cases h
      refine ⟨hbs, rfl, hN, ?_⟩
      intro f hf
      rw [List.mem_append] at hf
      rcases hf with hf | hf
      · exact hfiles f hf
      · rw [List.mem_singleton] at hf
        subst hf
        omega
    · rename_i hroll
      cases h
      refine ⟨hbs, by simp [hcnt], ?_, hfiles⟩
      simp only [List.length_append, List.length_singleton]
      omega

theorem BatchedWriter.inv_writeAll {N : Nat} {w w' : BatchedWriter} {ls : List String}
    (hN : 1 ≤ N) (hw : w.Inv N) (h : w.writeAll ls = .ok w') : w'.Inv N := by
  induction ls generalizing w with
  | nil =>
    unfold BatchedWriter.writeAll at h
    cases h
    exact hw
  | cons l ls ih =>
    unfold BatchedWriter.writeAll at h
    rw [ebind_ok_iff] at h
    obtain ⟨w₁, hw₁, h⟩ := h
    exact ih (BatchedWriter.inv_write hN hw hw₁) h

/-- One write appends exactly its line to the concatenation of all physical
files, regardless of rollover. -/
theorem BatchedWriter.write_flatten {w w' : BatchedWriter} {line : String}
    (h : w.write line = .ok w') :
    w'.allFiles.flatten = w.allFiles.flatten ++ [line] := by
  unfold BatchedWriter.write at h
  split at h
  · cases h
  · split at h
    · cases h
      simp [BatchedWriter.allFiles]
    · cases h
      simp [BatchedWriter.allFiles]

theorem BatchedWriter.writeAll_flatten {w w' : BatchedWriter} {ls : List String}
    (h : w.writeAll ls = .ok w') :
    w'.allFiles.flatten = w.allFiles.flatten ++ ls := by
  induction ls generalizing w with
  | nil =>
    unfold BatchedWriter.writeAll at h
    cases h
    simp
  | cons l ls ih =>
    unfold BatchedWriter.writeAll at h
    rw [ebind_ok_iff] at h
    obtain ⟨w₁, hw₁, h⟩ := h
    rw [ih h, BatchedWriter.write_flatten hw₁]
    simp

/-- C1, counterexample: with batchSize 2, writing the header and three data
rows through one writer fills the first file with the header plus only one
data row — the header write counts toward the batch, so the first file (not
the last) holds batchSize - 1 data rows, not batchSize. -/
theorem batch_first_file_short_of_header :
    ((BatchedWriter.init 2).writeAll ["header", "row1", "row2", "row3"]).map
      BatchedWriter.allFiles = .ok [["header", "row1"], ["row2", "row3"]] ∧
    ["header", "row1"].length - 1 ≠ 2 := by
  constructor
  · rfl
  · decide

/-- C1, amended: rollover does happen before the write that would exceed
capacity, so every physical file except possibly the last holds exactly
batchSize *lines*; since the header line is written through the same writer
and counts toward the batch, the first file holds the header plus
batchSize - 1 data rows while later files hold batchSize data rows. -/
theorem batch_nonlast_files_hold_batchsize_lines (N : Nat) (ls : List String)
    (w' : BatchedWriter) (hN : 1 ≤ N)
    (h : (BatchedWriter.init N).writeAll ls = .ok w') :
    ∀ f ∈ w'.closedFiles, f.length = N :=
  (BatchedWriter.inv_writeAll hN (BatchedWriter.inv_init N) h).2.2.2

/-- Witness for the amended C1 theorem at batchSize 2 and four lines. -/
theorem batch_nonlast_files_hold_batchsize_lines_example :
    1 ≤ 2 ∧
    ∀ f ∈ ({ batchSize := 2, batchNumber := 2, currentBatchSize := 2,
             isClosed := false, closedFiles := [["header", "row1"]],
             current := ["row2", "row3"] } : BatchedWriter).closedFiles,
      f.length = 2 :=
  ⟨by decide,
   batch_nonlast_files_hold_batchsize_lines 2 ["header", "row1", "row2", "row3"]
     _ (by decide) rfl⟩

/-- C7, counterexample: with batchSize 1 the file opened by rollover starts
with the data row that triggered the rollover, not with a header — only the
first physical file of a table carries the header row. -/
theorem rollover_file_lacks_header :
    ((BatchedWriter.init 1).writeAll ["header", "row1"]).map
      BatchedWriter.allFiles = .ok [["header"], ["row1"]] ∧
    "row1" ≠ "header" := by
  constructor
  · rfl
  · decide

/-- C7, amended: the header is written once, so across a run the
concatenation of all physical files is exactly the header followed by the
data rows in order: the first file begins with the header and no rollover
file receives a fresh header. -/
theorem header_only_in_first_file (N : Nat) (header : String) (ls : List String)
    (w' : BatchedWriter) (hN : 1 ≤ N)
    (h : (BatchedWriter.init N).writeAll (header :: ls) = .ok w') :
    w'.allFiles.flatten = header :: ls ∧
    ∃ f fs, w'.allFiles = f :: fs ∧ f.head? = some header := by
  have hflat := BatchedWriter.writeAll_flatten h
  have hinv := BatchedWriter.inv_writeAll hN (BatchedWriter.inv_init N) h
  have hflat' : w'.allFiles.flatten = header :: ls := by
    rw [hflat]
    simp [BatchedWriter.allFiles, BatchedWriter.init]
  refine ⟨hflat', ?_⟩
  rcases hcf : w'.closedFiles with _ | ⟨f, fs⟩
  · refine ⟨w'.current, [], ?_, ?_⟩
    · simp [BatchedWriter.allFiles, hcf]
    · have hcur : w'.current = header :: ls := by
        have := hflat'
        simp [BatchedWriter.allFiles, hcf] at this
        exact this
      rw [hcur]
      rfl
  · have hflen : f.length = N := hinv.2.2.2 f (by rw [hcf]; exact List.mem_cons_self f fs)
    rcases hf : f with _ | ⟨x, xs⟩
    · rw [hf] at hflen
      simp at hflen
      omega
    · refine ⟨f, fs ++ [w'.current], ?_, ?_⟩
      · simp [BatchedWriter.allFiles, hcf]
      · have : w'.allFiles.flatten = (x :: xs) ++ (fs ++ [w'.current]).flatten := by
          simp [BatchedWriter.allFiles, hcf, hf]
        rw [hflat'] at this
        have hx : x = header := by
          have := congrArg List.head? this
          simp at this
          exact this.symm
        rw [hf, hx]
        rfl

/-- Witness for the amended C7 theorem at batchSize 1. -/
theorem header_only_in_first_file_example :
    1 ≤ 1 ∧
    (({ batchSize := 1, batchNumber := 2, currentBatchSize := 1,
        isClosed := false, closedFiles := [["header"]],
        current := ["row1"] } : BatchedWriter).allFiles.flatten
      = "header" :: ["row1"] ∧
     ∃ f fs, ({ batchSize := 1, batchNumber := 2, currentBatchSize := 1,
                isClosed := false, closedFiles := [["header"]],
                current := ["row1"] } : BatchedWriter).allFiles = f :: fs ∧
       f.head? = some "header") :=
  ⟨by decide, header_only_in_first_file 1 "header" ["row1"] _ (by decide) rfl⟩

theorem BatchedWriter.close_of_closed {w : BatchedWriter} (h : w.isClosed = true) :
    w.close = w := by
  unfold BatchedWriter.close
  rw [if_pos h]

theorem BatchedWriter.write_of_closed {w : BatchedWriter} (line : String)
    (h : w.isClosed = true) :
    w.write line = .error (.valueError "I/O operation on closed file") := by
  unfold BatchedWriter.write
  rw [if_pos h]

theorem BatchedWriter.close_isClosed (w : BatchedWriter) : w.close.isClosed = true := by
  unfold BatchedWriter.close
  split
  · assumption
  · rfl

/-- C9: closing an already-closed writer is a no-op, and any write on a
closed writer raises ValueError instead of silently writing. -/
theorem close_idempotent_write_after_close_fails (w : BatchedWriter) :
    w.close.close = w.close ∧
    ∀ line, w.close.write line =
      .error (.valueError "I/O operation on closed file") :=
  ⟨BatchedWriter.close_of_closed (BatchedWriter.close_isClosed w),
   fun line => BatchedWriter.write_of_closed line (BatchedWriter.close_isClosed w)⟩

/-- C2, counterexample: for a record whose first (and only) author entry has
a null author id, the engine completes the record without error and silently
writes a MainAuthor edge whose authorID is None, while no Author node row was
written at all — it neither omits the edge nor fails loudly. -/
theorem mainauthor_null_written_silently :
    (processPaper initState nullAuthorPaper).map
      (fun st => (st.mainauthorRows, st.authorsRows)) =
    .ok ([[("paperID", .str "P1"), ("authorID", JValue.null)]], []) := rfl

/-- C3, counterexample: in the workshop branch the first-seen IsHeldIn edge
carries the city read from the journal sub-object, not a null city. -/
theorem workshop_isheldin_city_not_null :
    (processPaper initState workshopPaper).map (fun st => st.isheldinRows) =
      .ok [[("proceedingsID", .str "[\"W1\", 2024]"),
            ("city", .str "Barcelona")]] ∧
    JValue.str "Barcelona" ≠ JValue.null := by
  constructor
  · rfl
  · decide

/-- C4, counterexample: the same record streamed twice produces two
Publication node rows with the same paperID key — Publication nodes are not
deduplicated. -/
theorem publication_rows_not_deduplicated :
    (processPapers initState [plainPaper, plainPaper]).map
      (fun st => st.papersRows.map (fun r => r.lookup "paperID")) =
    .ok [some (.str "P1"), some (.str "P1")] := rfl

/-- C5, counterexample: a record in which the optional `abstract` field is
absent aborts the run with a KeyError instead of being written with a null
value. -/
theorem missing_abstract_aborts :
    processPaper initState missingAbstractPaper = .error (.keyError "abstract") := rfl

/-- C6, counterexample: a record with the unrecognized venue type
"symposium" emits its Publication/Author/FieldOfStudy rows and no
venue-related rows, but the warning list stays empty — no warning naming the
unrecognized type is logged. -/
theorem unknown_venue_type_no_warning :
    (processPaper initState plainPaper).map
      (fun st => (st.warnings, st.journalsRows, st.conferencesRows,
        st.workshopsRows, st.proceedingsRows, st.journalvolumesRows,
        st.iseditionofjournalRows, st.iseditionofconferenceRows,
        st.iseditionofworkshopRows, st.isheldinRows,
        st.ispublishedinjournalRows, st.ispublishedinproceedingsRows)) =
      .ok ([], [], [], [], [], [], [], [], [], [], [], []) ∧
    (processPaper initState plainPaper).map
      (fun st => (st.papersRows.length, st.authorsRows.length,
        st.fieldsofstudyRows.length)) = .ok (1, 1, 1) := by
  constructor
  · rfl
  · rfl

/-! ## Frame lemmas: which tables each stage leaves untouched -/

theorem processFos_frame (pid : JValue) (st : BuilderState) (fos : JValue) :
    (processFos pid st fos).papersRows = st.papersRows ∧
    (processFos pid st fos).mainauthorRows = st.mainauthorRows ∧
    (processFos pid st fos).warnings = st.warnings := by
  unfold processFos
  split <;> exact ⟨rfl, rfl, rfl⟩

theorem foldl_processFos_frame (pid : JValue) :
    ∀ (l : List JValue) (st : BuilderState),
    ((l.foldl (processFos pid) st).papersRows = st.papersRows ∧
     (l.foldl (processFos pid) st).mainauthorRows = st.mainauthorRows ∧
     (l.foldl (processFos pid) st).warnings = st.warnings)
  | [], st => ⟨rfl, rfl, rfl⟩
  | x :: xs, st => by
      simp only [List.foldl_cons]
      have h1 := processFos_frame pid st x
      have h2 := foldl_processFos_frame pid xs (processFos pid st x)
      exact ⟨h2.1.trans h1.1, h2.2.1.trans h1.2.1, h2.2.2.trans h1.2.2⟩

theorem processAffiliation_frame (aid : JValue) (st : BuilderState) (aff : JValue) :
    (processAffiliation aid st aff).papersRows = st.papersRows ∧
    (processAffiliation aid st aff).mainauthorRows = st.mainauthorRows ∧
    (processAffiliation aid st aff).warnings = st.warnings := by
  unfold processAffiliation
  split <;> exact ⟨rfl, rfl, rfl⟩

theorem foldl_processAffiliation_frame (aid : JValue) :
    ∀ (l : List JValue) (st : BuilderState),
    ((l.foldl (processAffiliation aid) st).papersRows = st.papersRows ∧
     (l.foldl (processAffiliation aid) st).mainauthorRows = st.mainauthorRows ∧
     (l.foldl (processAffiliation aid) st).warnings = st.warnings)
  | [], st => ⟨rfl, rfl, rfl⟩
  | x :: xs, st => by
      simp only [List.foldl_cons]
      have h1 := processAffiliation_frame aid st x
      have h2 := foldl_processAffiliation_frame aid xs (processAffiliation aid st x)
      exact ⟨h2.1.trans h1.1, h2.2.1.trans h1.2.1, h2.2.2.trans h1.2.2⟩

theorem processAuthor_frame {pid : JValue} {st st' : BuilderState} {a : JValue}
    (h : processAuthor pid st a = .ok st') :
    st'.papersRows = st.papersRows ∧ st'.mainauthorRows = st.mainauthorRows := by
  unfold processAuthor at h
  rw [ebind_ok_iff] at h
  obtain ⟨aid, haid, h⟩ := h
  split at h
  · rw [epure_eq_ok] at h
    cases h
    exact ⟨rfl, rfl⟩
  · rw [ebind_ok_iff] at h
    obtain ⟨st1, hst1, h⟩ := h
    rw [ebind_ok_iff] at h
    obtain ⟨affv, haffv, h⟩ := h
    rw [ebind_ok_iff] at h
    obtain ⟨affs, haffs, h⟩ := h
    rw [epure_eq_ok] at h
    cases h
    have hst1frame : st1.papersRows = st.papersRows ∧ st1.mainauthorRows = st.mainauthorRows := by
      split at hst1
      · rw [epure_eq_ok] at hst1
        cases hst1
        exact ⟨rfl, rfl⟩
      · rw [ebind_ok_iff] at hst1
        obtain ⟨aurl, _, hst1⟩ := hst1
        rw [ebind_ok_iff] at hst1
        obtain ⟨aname, _, hst1⟩ := hst1
        rw [ebind_ok_iff] at hst1
        obtain ⟨ahome, _, hst1⟩ := hst1
        rw [ebind_ok_iff] at hst1
        obtain ⟨ahi, _, hst1⟩ := hst1
        rw [epure_eq_ok] at hst1
        cases hst1
        exact ⟨rfl, rfl⟩
    have hfold := foldl_processAffiliation_frame aid affs
      { st1 with wroteRows := st1.wroteRows ++ [[("paperID", pid), ("authorID", aid)]] }
    exact ⟨hfold.1.trans hst1frame.1, hfold.2.1.trans hst1frame.2⟩

theorem processAuthorList_frame {pid : JValue} {st st' : BuilderState} :
    ∀ {l : List JValue}, processAuthorList pid st l = .ok st' →
    st'.papersRows = st.papersRows ∧ st'.mainauthorRows = st.mainauthorRows := by
  intro l
  induction l generalizing st with
  | nil =>
    intro h
    unfold processAuthorList at h
    cases h
    exact ⟨rfl, rfl⟩
  | cons a rest ih =>
    intro h
    unfold processAuthorList at h
    rw [ebind_ok_iff] at h
    obtain ⟨st1, hst1, h⟩ := h
    have h1 := processAuthor_frame hst1
    have h2 := ih h
    exact ⟨h2.1.trans h1.1, h2.2.trans h1.2⟩

theorem processJournalVenue_frame {paper pid year venue : JValue} {st st' : BuilderState}
    (h : processJournalVenue paper pid year venue st = .ok st') :
    st'.papersRows = st.papersRows ∧ st'.mainauthorRows = st.mainauthorRows := by
  unfold processJournalVenue at h
  rw [ebind_ok_iff] at h
  obtain ⟨vid, hvid, h⟩ := h
  rw [ebind_ok_iff] at h
  obtain ⟨st1, hst1, h⟩ := h
  rw [ebind_ok_iff] at h
  obtain ⟨journal, hj, h⟩ := h
  rw [ebind_ok_iff] at h
  obtain ⟨vol, hvol, h⟩ := h
  rw [ebind_ok_iff] at h
  obtain ⟨st2, hst2, h⟩ := h
  rw [ebind_ok_iff] at h
  obtain ⟨journal2, hj2, h⟩ := h
  rw [ebind_ok_iff] at h
  obtain ⟨pages, hp, h⟩ := h
  rw [epure_eq_ok] at h
  cases h
  have h1 : st1.papersRows = st.papersRows ∧ st1.mainauthorRows = st.mainauthorRows := by
    split at hst1
    · rw [epure_eq_ok] at hst1
      cases hst1
      exact ⟨rfl, rfl⟩
    · rw [ebind_ok_iff] at hst1
      obtain ⟨vname, _, hst1⟩ := hst1
      rw [ebind_ok_iff] at hst1
      obtain ⟨vurl, _, hst1⟩ := hst1
      rw [ebind_ok_iff] at hst1
      obtain ⟨alts, _, hst1⟩ := hst1
      rw [epure_eq_ok] at hst1
      cases hst1
      exact ⟨rfl, rfl⟩
  have h2 : st2.papersRows = st1.papersRows ∧ st2.mainauthorRows = st1.mainauthorRows := by
    split at hst2
    · rw [epure_eq_ok] at hst2
      cases hst2
      exact ⟨rfl, rfl⟩
    · rw [epure_eq_ok] at hst2
      cases hst2
      exact ⟨rfl, rfl⟩
  exact ⟨h2.1.trans h1.1, h2.2.trans h1.2⟩

theorem processConferenceVenue_frame {paper pid year venue : JValue} {st st' : BuilderState}
    (h : processConferenceVenue paper pid year venue st = .ok st') :
    st'.papersRows = st.papersRows ∧ st'.mainauthorRows = st.mainauthorRows := by
  unfold processConferenceVenue at h
  rw [ebind_ok_iff] at h
  obtain ⟨vid, hvid, h⟩ := h
  rw [ebind_ok_iff] at h
  obtain ⟨st1, hst1, h⟩ := h
  rw [ebind_ok_iff] at h
  obtain ⟨st2, hst2, h⟩ := h
  rw [ebind_ok_iff] at h
  obtain ⟨jdef, hjd, h⟩ := h
  rw [ebind_ok_iff] at h
  obtain ⟨pages, hp, h⟩ := h
  rw [epure_eq_ok] at h
  cases h
  have h1 : st1.papersRows = st.papersRows ∧ st1.mainauthorRows = st.mainauthorRows := by
    split at hst1
    · rw [epure_eq_ok] at hst1
      cases hst1
      exact ⟨rfl, rfl⟩
    · rw [ebind_ok_iff] at hst1
      obtain ⟨vname, _, hst1⟩ := hst1
      rw [ebind_ok_iff] at hst1
      obtain ⟨vurl, _, hst1⟩ := hst1
      rw [ebind_ok_iff] at hst1
      obtain ⟨alts, _, hst1⟩ := hst1
      rw [epure_eq_ok] at hst1
      cases hst1
      exact ⟨rfl, rfl⟩
  have h2 : st2.papersRows = st1.papersRows ∧ st2.mainauthorRows = st1.mainauthorRows := by
    split at hst2
    · rw [epure_eq_ok] at hst2
      cases hst2
      exact ⟨rfl, rfl⟩
    · rw [epure_eq_ok] at hst2
      cases hst2
      exact ⟨rfl, rfl⟩
  exact ⟨h2.1.trans h1.1, h2.2.trans h1.2⟩

theorem processWorkshopVenue_frame {paper pid year venue : JValue} {st st' : BuilderState}
    (h : processWorkshopVenue paper pid year venue st = .ok st') :
    st'.papersRows = st.papersRows ∧ st'.mainauthorRows = st.mainauthorRows := by
  unfold processWorkshopVenue at h
  rw [ebind_ok_iff] at h
  obtain ⟨vid, hvid, h⟩ := h
  rw [ebind_ok_iff] at h
  obtain ⟨st1, hst1, h⟩ := h
  rw [ebind_ok_iff] at h
  obtain ⟨st2, hst2, h⟩ := h
  rw [ebind_ok_iff] at h
  obtain ⟨jdef, hjd, h⟩ := h
  rw [ebind_ok_iff] at h
  obtain ⟨pages, hp, h⟩ := h
  rw [epure_eq_ok] at h
  cases h
  have h1 : st1.papersRows = st.papersRows ∧ st1.mainauthorRows = st.mainauthorRows := by
    split at hst1
    · rw [epure_eq_ok] at hst1
      cases hst1
      exact ⟨rfl, rfl⟩
    · rw [ebind_ok_iff] at hst1
      obtain ⟨vname, _, hst1⟩ := hst1
      rw [ebind_ok_iff] at hst1
      obtain ⟨vurl, _, hst1⟩ := hst1
      rw [ebind_ok_iff] at hst1
      obtain ⟨alts, _, hst1⟩ := hst1
      rw [epure_eq_ok] at hst1
      cases hst1
      exact ⟨rfl, rfl⟩
  have h2 : st2.papersRows = st1.papersRows ∧ st2.mainauthorRows = st1.mainauthorRows := by
    split at hst2
    · rw [epure_eq_ok] at hst2
      cases hst2
      exact ⟨rfl, rfl⟩
    · rw [ebind_ok_iff] at hst2
      obtain ⟨journal, _, hst2⟩ := hst2
      rw [ebind_ok_iff] at hst2
      obtain ⟨city, _, hst2⟩ := hst2
      rw [epure_eq_ok] at hst2
      cases hst2
      exact ⟨rfl, rfl⟩
  exact ⟨h2.1.trans h1.1, h2.2.trans h1.2⟩

theorem processVenue_frame {paper pid year venue : JValue} {st st' : BuilderState}
    (h : processVenue paper pid year venue st = .ok st') :
    st'.papersRows = st.papersRows ∧ st'.mainauthorRows = st.mainauthorRows := by
  unfold processVenue at h
  rw [ebind_ok_iff] at h
  obtain ⟨vtype, hvt, h⟩ := h
  rw [ebind_ok_iff] at h
  obtain ⟨st1, hst1, h⟩ := h
  rw [ebind_ok_iff] at h
  obtain ⟨st2, hst2, h⟩ := h
  have h1 : st1.papersRows = st.papersRows ∧ st1.mainauthorRows = st.mainauthorRows := by
    split at hst1
    · exact processJournalVenue_frame hst1
    · rw [epure_eq_ok] at hst1
      cases hst1
      exact ⟨rfl, rfl⟩
  have h2 : st2.papersRows = st1.papersRows ∧ st2.mainauthorRows = st1.mainauthorRows := by
    split at hst2
    · exact processConferenceVenue_frame hst2
    · rw [epure_eq_ok] at hst2
      cases hst2
      exact ⟨rfl, rfl⟩
  have h3 : st'.papersRows = st2.papersRows ∧ st'.mainauthorRows = st2.mainauthorRows := by
    split at h
    · exact processWorkshopVenue_frame h
    · rw [epure_eq_ok] at h
      cases h
      exact ⟨rfl, rfl⟩
  exact ⟨(h3.1.trans h2.1).trans h1.1, (h3.2.trans h2.2).trans h1.2⟩

/-- Inversion of a successful `processPaper`: every lookup the source performs
must have succeeded, the author list must be non-empty, and the final state is
the venue stage applied after appending the Publication row, the
fields-of-study loop, the authors loop, and the MainAuthor edge taken verbatim
from the first author entry of the unfiltered list. -/
theorem processPaper_ok_shape {st st' : BuilderState} {paper : JValue}
    (h : processPaper st paper = .ok st') :
    ∃ pid purl ptitle pabstract pyear popen ppdf ptypes pembed ptldr
      fosv fosList authv auths st2 a rest maid venue,
      paper.index "paperId" = .ok pid ∧
      paper.index "url" = .ok purl ∧
      paper.index "title" = .ok ptitle ∧
      paper.index "abstract" = .ok pabstract ∧
      paper.index "year" = .ok pyear ∧
      paper.index "isOpenAccess" = .ok popen ∧
      paper.getD "openAccessPdfUrl" .null = .ok ppdf ∧
      paper.index "publicationTypes" = .ok ptypes ∧
      paper.getD "embedding" .null = .ok pembed ∧
      paper.getD "tldr" .null = .ok ptldr ∧
      paper.index "fieldsOfStudy" = .ok fosv ∧
      fosv.asList = .ok fosList ∧
      paper.index "authors" = .ok authv ∧
      authv.asList = .ok auths ∧
      auths = a :: rest ∧
      processAuthorList pid
        (fosList.foldl (processFos pid)
          { st with
            papersRows := st.papersRows ++
              [[("paperID", pid), ("url", purl), ("title", ptitle),
                ("abstract", pabstract), ("year", pyear), ("isOpenAccess", popen),
                ("openAccessPDFUrl", ppdf), ("publicationTypes", ptypes),
                ("embedding", JValue.str (jdumps pembed)), ("tldr", ptldr)]] })
        auths = .ok st2 ∧
      a.index "authorId" = .ok maid ∧
      paper.index "publicationVenue" = .ok venue ∧
      processVenue paper pid pyear venue
        { st2 with mainauthorRows := st2.mainauthorRows ++
          [[("paperID", pid), ("authorID", maid)]] } = .ok st' := by
  unfold processPaper at h
  rw [ebind_ok_iff] at h
  obtain ⟨pid, hpid, h⟩ := h
  rw [ebind_ok_iff] at h
  obtain ⟨purl, hpurl, h⟩ := h
  rw [ebind_ok_iff] at h
  obtain ⟨ptitle, hptitle, h⟩ := h
  rw [ebind_ok_iff] at h
  obtain ⟨pabstract, hpabstract, h⟩ := h
  rw [ebind_ok_iff] at h
  obtain ⟨pyear, hpyear, h⟩ := h
  rw [ebind_ok_iff] at h
  obtain ⟨popen, hpopen, h⟩ := h
  rw [ebind_ok_iff] at h
  obtain ⟨ppdf, hppdf, h⟩ := h
  rw [ebind_ok_iff] at h
  obtain ⟨ptypes, hptypes, h⟩ := h
  rw [ebind_ok_iff] at h
  obtain ⟨pembed, hpembed, h⟩ := h
  rw [ebind_ok_iff] at h
  obtain ⟨ptldr, hptldr, h⟩ := h
  rw [ebind_ok_iff] at h
  obtain ⟨fosv, hfosv, h⟩ := h
  rw [ebind_ok_iff] at h
  obtain ⟨fosList, hfosList, h⟩ := h
  rw [ebind_ok_iff] at h
  obtain ⟨authv, hauthv, h⟩ := h
  rw [ebind_ok_iff] at h
  obtain ⟨auths, hauths, h⟩ := h
  rw [ebind_ok_iff] at h
  obtain ⟨st2, hst2, h⟩ := h
  rw [ebind_ok_iff] at h
  obtain ⟨st3, hst3, h⟩ := h
  rw [ebind_ok_iff] at h
  obtain ⟨venue, hvenue, h⟩ := h
  cases auths with
  | nil => cases hst3
  | cons a rest =>
    rw [ebind_ok_iff] at hst3
    obtain ⟨maid, hmaid, hst3⟩ := hst3
    rw [epure_eq_ok] at hst3
    cases hst3
    exact ⟨pid, purl, ptitle, pabstract, pyear, popen, ppdf, ptypes, pembed, ptldr,
      fosv, fosList, authv, a :: rest, st2, a, rest, maid, venue,
      hpid, hpurl, hptitle, hpabstract, hpyear, hpopen, hppdf, hptypes, hpembed,
      hptldr, hfosv, hfosList, hauthv, hauths, rfl, hst2, hmaid, hvenue, h⟩

/-- C2, amended: whenever a record is processed successfully, exactly one
MainAuthor edge is appended and it references the authorId of the first entry
of the original unfiltered author list verbatim — including a null id (the
skipped author is warned about, but the edge is still written silently); an
empty author list never completes successfully (the IndexError of
`paper["authors"][0]` aborts the run instead of omitting the edge). -/
theorem mainauthor_first_entry_verbatim {st st' : BuilderState} {paper : JValue}
    (h : processPaper st paper = .ok st') :
    ∃ pid authv auths a rest maid,
      paper.index "paperId" = .ok pid ∧
      paper.index "authors" = .ok authv ∧
      authv.asList = .ok auths ∧
      auths = a :: rest ∧
      a.index "authorId" = .ok maid ∧
      st'.mainauthorRows = st.mainauthorRows ++
        [[("paperID", pid), ("authorID", maid)]] := by
  obtain ⟨pid, _, _, _, _, _, _, _, _, _, _, fosList, authv, auths, st2, a, rest,
    maid, venue, hpid, _, _, _, _, _, _, _, _, _, _, hfosList, hauthv, hauths,
    hcons, hst2, hmaid, hvenue, hproc⟩ := processPaper_ok_shape h
  refine ⟨pid, authv, auths, a, rest, maid, hpid, hauthv, hauths, hcons, hmaid, ?_⟩
  have hv := (processVenue_frame hproc).2
  have hal := (processAuthorList_frame hst2).2
  calc st'.mainauthorRows
      = st2.mainauthorRows ++ [[("paperID", pid), ("authorID", maid)]] := hv
    _ = st.mainauthorRows ++ [[("paperID", pid), ("authorID", maid)]] := by
        rw [hal, (foldl_processFos_frame pid fosList _).2.1]

/-- Witness for the amended C2 theorem: the record whose only author has a
null id yields exactly one MainAuthor edge carrying that null id. -/
theorem mainauthor_first_entry_verbatim_example :
    ∃ pid authv auths a rest maid,
      nullAuthorPaper.index "paperId" = .ok pid ∧
      nullAuthorPaper.index "authors" = .ok authv ∧
      authv.asList = .ok auths ∧
      auths = a :: rest ∧
      a.index "authorId" = .ok maid ∧
      nullAuthorResult.mainauthorRows = initState.mainauthorRows ++
        [[("paperID", pid), ("authorID", maid)]] :=
  @mainauthor_first_entry_verbatim initState nullAuthorResult nullAuthorPaper rfl

/-- C5, amended: only the fields the source reads with `.get` tolerate
absence — an absent `openAccessPdfUrl` is written as a null value and the run
continues — while absence of a field read by subscript such as `abstract`
raises a KeyError that aborts the whole run instead of being written as
null. -/
theorem absent_optional_field_policy :
    (∀ (st : BuilderState) (fields : List (String × JValue)) (pid purl ptitle : JValue),
      fields.lookup "paperId" = some pid →
      fields.lookup "url" = some purl →
      fields.lookup "title" = some ptitle →
      fields.lookup "abstract" = none →
      processPaper st (.obj fields) = .error (.keyError "abstract")) ∧
    (∀ (st st' : BuilderState) (fields : List (String × JValue)),
      fields.lookup "openAccessPdfUrl" = none →
      processPaper st (.obj fields) = .ok st' →
      ∃ row, st'.papersRows = st.papersRows ++ [row] ∧
        row.lookup "openAccessPDFUrl" = some JValue.null) := by
  constructor
  · intro st fields pid purl ptitle hpid hpurl hptitle habs
    unfold processPaper
    have h1 : (JValue.obj fields).index "paperId" = .ok pid := by
      simp [JValue.index, hpid]
    have h2 : (JValue.obj fields).index "url" = .ok purl := by
      simp [JValue.index, hpurl]
    have h3 : (JValue.obj fields).index "title" = .ok ptitle := by
      simp [JValue.index, hptitle]
    have h4 : (JValue.obj fields).index "abstract" = .error (.keyError "abstract") := by
      simp [JValue.index, habs]
    rw [h1, ebind_ok, h2, ebind_ok, h3, ebind_ok, h4, ebind_err]
  · intro st st' fields hpdf h
    obtain ⟨pid, purl, ptitle, pabstract, pyear, popen, ppdf, ptypes, pembed,
      ptldr, _, fosList, _, _, st2, _, _, maid, venue, hpid, _, _, _, _, _,
      hppdf, _, _, _, _, hfosList, _, _, _, hst2, hmaid, hvenue, hproc⟩ :=
      processPaper_ok_shape h
    have hppdf' : ppdf = JValue.null := by
      simp [JValue.getD, hpdf] at hppdf
      exact hppdf.symm
    refine ⟨[("paperID", pid), ("url", purl), ("title", ptitle),
      ("abstract", pabstract), ("year", pyear), ("isOpenAccess", popen),
      ("openAccessPDFUrl", ppdf), ("publicationTypes", ptypes),
      ("embedding", JValue.str (jdumps pembed)), ("tldr", ptldr)], ?_, ?_⟩
    · have hv := (processVenue_frame hproc).1
      have hal := (processAuthorList_frame hst2).1
      calc st'.papersRows = st2.papersRows := hv
        _ = st.papersRows ++ _ := by
            rw [hal, (foldl_processFos_frame pid fosList _).1]
    · rw [hppdf']
      rfl

/-- Witness for the amended C5 theorem: the record lacking `abstract` aborts
with KeyError, and the record lacking `openAccessPdfUrl` gets a null value in
its Publication row. -/
theorem absent_optional_field_policy_example :
    processPaper initState missingAbstractPaper = .error (.keyError "abstract") ∧
    ∃ row, nullAuthorResult.papersRows = initState.papersRows ++ [row] ∧
      row.lookup "openAccessPDFUrl" = some JValue.null :=
  ⟨absent_optional_field_policy.1 initState
     [("paperId", .str "P1"), ("url", .str "u"), ("title", .str "T"),
      ("year", .num 2024), ("isOpenAccess", .bool true),
      ("publicationTypes", .null), ("fieldsOfStudy", .arr []),
      ("authors", .arr [.obj [("authorId", .str "A1"), ("url", .null),
        ("name", .str "Ada"), ("affiliations", .arr [])]]),
      ("publicationVenue", .obj [("type", .str "misc")])]
     _ _ _ rfl rfl rfl rfl,
   absent_optional_field_policy.2 initState nullAuthorResult
     [("paperId", .str "P1"), ("url", .str "u"), ("title", .str "T"),
      ("abstract", .null), ("year", .num 2024), ("isOpenAccess", .bool true),
      ("publicationTypes", .null), ("fieldsOfStudy", .arr []),
      ("authors", .arr [.obj [("authorId", .null), ("name", .str "Anon")]]),
      ("publicationVenue", .obj [("type", .str "misc")])]
     rfl rfl⟩

/-- C10: a record whose `publicationVenue` is null or absent can never be
processed successfully — the venue lookup or the `venue["type"]` subscript
raises an uncaught exception, and the whole remaining run aborts with it
rather than skipping the record with a warning. -/
theorem missing_publication_venue_aborts {paper : JValue}
    (h : paper.index "publicationVenue" = .ok JValue.null ∨
         ∃ e, paper.index "publicationVenue" = .error e) :
    ∀ st : BuilderState, (∃ e, processPaper st paper = .error e) ∧
      ∀ rest, ∃ e, processPapers st (paper :: rest) = .error e := by
  intro st
  have habort : ∃ e, processPaper st paper = .error e := by
    cases hp : processPaper st paper with
    | error e => exact ⟨e, rfl⟩
    | ok st' =>
      exfalso
      obtain ⟨_, _, _, _, _, _, _, _, _, _, _, _, _, _, _, _, _, _, venue,
        _, _, _, _, _, _, _, _, _, _, _, _, _, _, _, _, _, hvenue, hproc⟩ :=
        processPaper_ok_shape hp
      have hvt : ∃ vtype, venue.index "type" = .ok vtype := by
        unfold processVenue at hproc
        rw [ebind_ok_iff] at hproc
        obtain ⟨vtype, hvt, _⟩ := hproc
        exact ⟨vtype, hvt⟩
      obtain ⟨vtype, hvt⟩ := hvt
      cases h with
      | inl hnull =>
        rw [hnull] at hvenue
        cases hvenue
        simp [JValue.index] at hvt
      | inr he =>
        obtain ⟨e, he⟩ := he
        rw [he] at hvenue
        cases hvenue
  refine ⟨habort, ?_⟩
  intro rest
  obtain ⟨e, he⟩ := habort
  refine ⟨e, ?_⟩
  unfold processPapers
  rw [he, ebind_err]

/-- Witness for C10 at a concrete record lacking `publicationVenue`. -/
theorem missing_publication_venue_aborts_example :
    (∃ e, processPaper initState missingVenuePaper = .error e) ∧
    (∃ e, processPapers initState [missingVenuePaper] = .error e) :=
  ⟨(@missing_publication_venue_aborts missingVenuePaper
      (Or.inr ⟨.keyError "publicationVenue", rfl⟩) initState).1,
   (@missing_publication_venue_aborts missingVenuePaper
      (Or.inr ⟨.keyError "publicationVenue", rfl⟩) initState).2 []⟩

/-- C6, amended: a record with a venue type other than journal, conference or
workshop emits its Publication/Author/FieldOfStudy rows, but the venue stage
is a complete no-op — it leaves the state, the warning list included,
untouched: no warning naming the unrecognized type is logged. -/
theorem unknown_venue_type_noop (paper pid year venue : JValue) (st : BuilderState)
    (vtype : JValue)
    (ht : venue.index "type" = .ok vtype)
    (hj : vtype ≠ JValue.str "journal")
    (hc : vtype ≠ JValue.str "conference")
    (hw : vtype ≠ JValue.str "workshop") :
    processVenue paper pid year venue st = .ok st := by
  unfold processVenue
  rw [ht, ebind_ok, if_neg hj, epure_eq_ok, ebind_ok, if_neg hc, epure_eq_ok,
    ebind_ok, if_neg hw, epure_eq_ok]

/-- Witness for the amended C6 theorem at the venue type "symposium". -/
theorem unknown_venue_type_noop_example :
    processVenue plainPaper (.str "P1") (.num 2024)
      (.obj [("type", .str "symposium")]) initState = .ok initState :=
  unknown_venue_type_noop plainPaper (.str "P1") (.num 2024)
    (.obj [("type", .str "symposium")]) initState (.str "symposium")
    rfl (by decide) (by decide) (by decide)

/-- C3, amended: on a first-seen composite proceedings key exactly one
IsHeldIn edge is emitted; the conference branch writes it with a null city,
but the workshop branch writes it with the city read from
`paper["journal"]["city"]` — not null. -/
theorem isheldin_first_seen_city (paper pid year venue : JValue) :
    (∀ (st st1 : BuilderState) (vid : JValue),
      venue.index "id" = .ok vid →
      (vid, year) ∉ st.uniqueProceedingsIds →
      processConferenceVenue paper pid year venue st = .ok st1 →
      st1.isheldinRows = st.isheldinRows ++
        [[("proceedingsID", JValue.str (jdumps (.arr [vid, year]))),
          ("city", JValue.null)]]) ∧
    (∀ (st st1 : BuilderState) (vid : JValue),
      venue.index "id" = .ok vid →
      (vid, year) ∉ st.uniqueProceedingsIds →
      processWorkshopVenue paper pid year venue st = .ok st1 →
      ∃ journal city, paper.index "journal" = .ok journal ∧
        journal.index "city" = .ok city ∧
        st1.isheldinRows = st.isheldinRows ++
          [[("proceedingsID", JValue.str (jdumps (.arr [vid, year]))),
            ("city", city)]]) := by
  constructor
  · intro st st1 vid hvid hnew h
    unfold processConferenceVenue at h
    rw [hvid] at h
    rw [ebind_ok] at h
    rw [ebind_ok_iff] at h
    obtain ⟨stA, hstA, h⟩ := h
    have hA : stA.isheldinRows = st.isheldinRows ∧
        stA.uniqueProceedingsIds = st.uniqueProceedingsIds := by
      split at hstA
      · rw [epure_eq_ok] at hstA
        cases hstA
        exact ⟨rfl, rfl⟩
      · rw [ebind_ok_iff] at hstA
        obtain ⟨vname, _, hstA⟩ := hstA
        rw [ebind_ok_iff] at hstA
        obtain ⟨vurl, _, hstA⟩ := hstA
        rw [ebind_ok_iff] at hstA
        obtain ⟨alts, _, hstA⟩ := hstA
        rw [epure_eq_ok] at hstA
        cases hstA
        exact ⟨rfl, rfl⟩
    rw [ebind_ok_iff] at h
    obtain ⟨stB, hstB, h⟩ := h
    rw [if_neg (by rw [hA.2]; exact hnew), epure_eq_ok] at hstB
    cases hstB
    rw [ebind_ok_iff] at h
    obtain ⟨jdef, _, h⟩ := h
    rw [ebind_ok_iff] at h
    obtain ⟨pages, _, h⟩ := h
    rw [epure_eq_ok] at h
    cases h
    show stA.isheldinRows ++ _ = _
    rw [hA.1]
  · intro st st1 vid hvid hnew h
    unfold processWorkshopVenue at h
    rw [hvid] at h
    rw [ebind_ok] at h
    rw [ebind_ok_iff] at h
    obtain ⟨stA, hstA, h⟩ := h
    have hA : stA.isheldinRows = st.isheldinRows ∧
        stA.uniqueProceedingsIds = st.uniqueProceedingsIds := by
      split at hstA
      · rw [epure_eq_ok] at hstA
        cases hstA
        exact ⟨rfl, rfl⟩
      · rw [ebind_ok_iff] at hstA
        obtain ⟨vname, _, hstA⟩ := hstA
        rw [ebind_ok_iff] at hstA
        obtain ⟨vurl, _, hstA⟩ := hstA
        rw [ebind_ok_iff] at hstA
        obtain ⟨alts, _, hstA⟩ := hstA
        rw [epure_eq_ok] at hstA
        cases hstA
        exact ⟨rfl, rfl⟩
    rw [ebind_ok_iff] at h
    obtain ⟨stB, hstB, h⟩ := h
    rw [if_neg (by rw [hA.2]; exact hnew)] at hstB
    rw [ebind_ok_iff] at hstB
    obtain ⟨journal, hjournal, hstB⟩ := hstB
    rw [ebind_ok_iff] at hstB
    obtain ⟨city, hcity, hstB⟩ := hstB
    rw [epure_eq_ok] at hstB
    cases hstB
    rw [ebind_ok_iff] at h
    obtain ⟨jdef, _, h⟩ := h
    rw [ebind_ok_iff] at h
    obtain ⟨pages, _, h⟩ := h
    rw [epure_eq_ok] at h
    cases h
    refine ⟨journal, city, hjournal, hcity, ?_⟩
    show stA.isheldinRows ++ _ = _
    rw [hA.1]

/-- Witness for the amended C3 theorem: a concrete first-seen conference
venue gets a null-city IsHeldIn edge, a concrete first-seen workshop venue
gets the city of its journal sub-object. -/
theorem isheldin_first_seen_city_example :
    (confVenueResult.isheldinRows = initState.isheldinRows ++
      [[("proceedingsID", JValue.str (jdumps (.arr [.str "C1", .num 2024]))),
        ("city", JValue.null)]]) ∧
    (∃ journal city,
      (JValue.obj [("journal", .obj [("city", .str "Barcelona")])]).index "journal"
        = .ok journal ∧
      journal.index "city" = .ok city ∧
      wsVenueResult.isheldinRows = initState.isheldinRows ++
        [[("proceedingsID", JValue.str (jdumps (.arr [.str "W1", .num 2024]))),
          ("city", city)]]) :=
  ⟨(isheldin_first_seen_city (.obj []) (.str "P9") (.num 2024)
      (.obj [("id", .str "C1"), ("name", .str "Conf"),
        ("alternate_names", .arr [])])).1
    initState confVenueResult (.str "C1") rfl (by decide) rfl,
   (isheldin_first_seen_city (.obj [("journal", .obj [("city", .str "Barcelona")])])
      (.str "P9") (.num 2024)
      (.obj [("id", .str "W1"), ("name", .str "WS"),
        ("alternate_names", .arr [])])).2
    initState wsVenueResult (.str "W1") rfl (by decide) rfl⟩

/-- C8: an author entry with a null author id only logs a warning — no Author
node, no Wrote edge, no IsAffiliatedWith or Organization rows, no dedup-set
change — and the loop continues over the remaining authors from that
warned state. -/
theorem null_author_id_skipped (pid : JValue) (st : BuilderState) (author : JValue)
    (h : author.index "authorId" = .ok JValue.null) :
    processAuthor pid st author =
      .ok { st with warnings := st.warnings ++ [Warning.nullAuthor author] } ∧
    ∀ rest, processAuthorList pid st (author :: rest) =
      processAuthorList pid
        { st with warnings := st.warnings ++ [Warning.nullAuthor author] } rest := by
  have h1 : processAuthor pid st author =
      .ok { st with warnings := st.warnings ++ [Warning.nullAuthor author] } := by
    unfold processAuthor
    simp only [h, ebind_ok]
    rw [if_true]
    rfl
  refine ⟨h1, fun rest => ?_⟩
  have hstep : processAuthorList pid st (author :: rest) =
      processAuthor pid st author >>= fun st' => processAuthorList pid st' rest := rfl
  rw [hstep, h1, ebind_ok]

/-- Witness for C8 at a concrete null-id author entry followed by a valid
author. -/
theorem null_author_id_skipped_example :
    processAuthor (.str "P1") initState (.obj [("authorId", JValue.null)]) =
      .ok { initState with
        warnings := [Warning.nullAuthor (.obj [("authorId", JValue.null)])] } ∧
    processAuthorList (.str "P1") initState
      [.obj [("authorId", JValue.null)],
       .obj [("authorId", .str "A1"), ("url", .null), ("name", .str "Ada"),
         ("affiliations", .arr [])]] =
    processAuthorList (.str "P1")
      { initState with
        warnings := [Warning.nullAuthor (.obj [("authorId", JValue.null)])] }
      [.obj [("authorId", .str "A1"), ("url", .null), ("name", .str "Ada"),
        ("affiliations", .arr [])]] :=
  ⟨(null_author_id_skipped (.str "P1") initState
      (.obj [("authorId", JValue.null)]) rfl).1,
   (null_author_id_skipped (.str "P1") initState
      (.obj [("authorId", JValue.null)]) rfl).2
     [.obj [("authorId", .str "A1"), ("url", .null), ("name", .str "Ada"),
       ("affiliations", .arr [])]]⟩

theorem keyedTable_nil {κ : Type} (field : String) (ser : κ → JValue) :
    KeyedTable [] [] field ser := ⟨List.nodup_nil, rfl⟩

theorem keyedTable_extend {κ : Type} {seen : List κ} {rows : List Row}
    {field : String} {ser : κ → JValue} {k : κ} {row : Row}
    (h : KeyedTable seen rows field ser) (hk : k ∉ seen)
    (hrow : row.lookup field = some (ser k)) :
    KeyedTable (seen ++ [k]) (rows ++ [row]) field ser := by
  obtain ⟨hnd, hmap⟩ := h
  constructor
  · rw [List.nodup_append]
    refine ⟨hnd, List.nodup_singleton k, ?_⟩
    intro a ha hmem
    rw [List.mem_singleton] at hmem
    subst hmem
    exact hk ha
  · rw [List.map_append, List.map_append, hmap]
    simp [hrow]

theorem dedupInv_init : DedupInv initState :=
  ⟨keyedTable_nil _ _, keyedTable_nil _ _, keyedTable_nil _ _, keyedTable_nil _ _,
   keyedTable_nil _ _, keyedTable_nil _ _, keyedTable_nil _ _, keyedTable_nil _ _⟩

theorem dedupInv_processFos {pid fos : JValue} {st : BuilderState}
    (h : DedupInv st) : DedupInv (processFos pid st fos) := by
  unfold processFos
  split
  · exact ⟨h.fos, h.authors, h.orgs, h.journals, h.conferences, h.workshops,
      h.proceedings, h.journalvolumes⟩
  · rename_i hmem
    exact ⟨keyedTable_extend h.fos hmem rfl, h.authors, h.orgs, h.journals,
      h.conferences, h.workshops, h.proceedings, h.journalvolumes⟩

theorem dedupInv_foldl_processFos {pid : JValue} :
    ∀ {l : List JValue} {st : BuilderState},
    DedupInv st → DedupInv (l.foldl (processFos pid) st)
  | [], _, h => h
  | x :: xs, st, h => by
      simp only [List.foldl_cons]
      exact dedupInv_foldl_processFos (dedupInv_processFos h)

theorem dedupInv_processAffiliation {aid aff : JValue} {st : BuilderState}
    (h : DedupInv st) : DedupInv (processAffiliation aid st aff) := by
  unfold processAffiliation
  split
  · exact ⟨h.fos, h.authors, h.orgs, h.journals, h.conferences, h.workshops,
      h.proceedings, h.journalvolumes⟩
  · rename_i hmem
    exact ⟨h.fos, h.authors, keyedTable_extend h.orgs hmem rfl, h.journals,
      h.conferences, h.workshops, h.proceedings, h.journalvolumes⟩

theorem dedupInv_foldl_processAffiliation {aid : JValue} :
    ∀ {l : List JValue} {st : BuilderState},
    DedupInv st → DedupInv (l.foldl (processAffiliation aid) st)
  | [], _, h => h
  | x :: xs, st, h => by
      simp only [List.foldl_cons]
      exact dedupInv_foldl_processAffiliation (dedupInv_processAffiliation h)

theorem dedupInv_processAuthor {pid : JValue} {st st' : BuilderState} {a : JValue}
    (hinv : DedupInv st) (h : processAuthor pid st a = .ok st') : DedupInv st' := by
  unfold processAuthor at h
  rw [ebind_ok_iff] at h
  obtain ⟨aid, haid, h⟩ := h
  split at h
  · rw [epure_eq_ok] at h
    cases h
    exact ⟨hinv.fos, hinv.authors, hinv.orgs, hinv.journals, hinv.conferences,
      hinv.workshops, hinv.proceedings, hinv.journalvolumes⟩
  · rw [ebind_ok_iff] at h
    obtain ⟨st1, hst1, h⟩ := h
    rw [ebind_ok_iff] at h
    obtain ⟨affv, haffv, h⟩ := h
    rw [ebind_ok_iff] at h
    obtain ⟨affs, haffs, h⟩ := h
    rw [epure_eq_ok] at h
    cases h
    have hinv1 : DedupInv st1 := by
      split at hst1
      · rw [epure_eq_ok] at hst1
        cases hst1
        exact hinv
      · rename_i hmem
        rw [ebind_ok_iff] at hst1
        obtain ⟨aurl, _, hst1⟩ := hst1
        rw [ebind_ok_iff] at hst1
        obtain ⟨aname, _, hst1⟩ := hst1
        rw [ebind_ok_iff] at hst1
        obtain ⟨ahome, _, hst1⟩ := hst1
        rw [ebind_ok_iff] at hst1
        obtain ⟨ahi, _, hst1⟩ := hst1
        rw [epure_eq_ok] at hst1
        cases hst1
        exact ⟨hinv.fos, keyedTable_extend hinv.authors hmem rfl, hinv.orgs,
          hinv.journals, hinv.conferences, hinv.workshops, hinv.proceedings,
          hinv.journalvolumes⟩
    have hinv2 : DedupInv { st1 with
        wroteRows := st1.wroteRows ++ [[("paperID", pid), ("authorID", aid)]] } :=
      ⟨hinv1.fos, hinv1.authors, hinv1.orgs, hinv1.journals, hinv1.conferences,
       hinv1.workshops, hinv1.proceedings, hinv1.journalvolumes⟩
    exact dedupInv_foldl_processAffiliation hinv2

theorem dedupInv_processAuthorList {pid : JValue} :
    ∀ {l : List JValue} {st st' : BuilderState},
    DedupInv st → processAuthorList pid st l = .ok st' → DedupInv st' := by
  intro l
  induction l with
  | nil =>
    intro st st' hinv h
    unfold processAuthorList at h
    cases h
    exact hinv
  | cons a rest ih =>
    intro st st' hinv h
    unfold processAuthorList at h
    rw [ebind_ok_iff] at h
    obtain ⟨st1, hst1, h⟩ := h
    exact ih (dedupInv_processAuthor hinv hst1) h

theorem dedupInv_processJournalVenue {paper pid year venue : JValue}
    {st st' : BuilderState} (hinv : DedupInv st)
    (h : processJournalVenue paper pid year venue st = .ok st') : DedupInv st' := by
  unfold processJournalVenue at h
  rw [ebind_ok_iff] at h
  obtain ⟨vid, hvid, h⟩ := h
  rw [ebind_ok_iff] at h
  obtain ⟨st1, hst1, h⟩ := h
  rw [ebind_ok_iff] at h
  obtain ⟨journal, hj, h⟩ := h
  rw [ebind_ok_iff] at h
  obtain ⟨vol, hvol, h⟩ := h
  rw [ebind_ok_iff] at h
  obtain ⟨st2, hst2, h⟩ := h
  rw [ebind_ok_iff] at h
  obtain ⟨journal2, hj2, h⟩ := h
  rw [ebind_ok_iff] at h
  obtain ⟨pages, hp, h⟩ := h
  rw [epure_eq_ok] at h
  cases h
  have hinv1 : DedupInv st1 := by
    split at hst1
    · rw [epure_eq_ok] at hst1
      cases hst1
      exact hinv
    · rename_i hmem
      rw [ebind_ok_iff] at hst1
      obtain ⟨vname, _, hst1⟩ := hst1
      rw [ebind_ok_iff] at hst1
      obtain ⟨vurl, _, hst1⟩ := hst1
      rw [ebind_ok_iff] at hst1
      obtain ⟨alts, _, hst1⟩ := hst1
      rw [epure_eq_ok] at hst1
      cases hst1
      exact ⟨hinv.fos, hinv.authors, hinv.orgs,
        keyedTable_extend hinv.journals hmem rfl, hinv.conferences,
        hinv.workshops, hinv.proceedings, hinv.journalvolumes⟩
  have hinv2 : DedupInv st2 := by
    split at hst2
    · rw [epure_eq_ok] at hst2
      cases hst2
      exact hinv1
    · rename_i hmem
      rw [epure_eq_ok] at hst2
      cases hst2
      exact ⟨hinv1.fos, hinv1.authors, hinv1.orgs, hinv1.journals,
        hinv1.conferences, hinv1.workshops, hinv1.proceedings,
        keyedTable_extend hinv1.journalvolumes hmem rfl⟩
  exact ⟨hinv2.fos, hinv2.authors, hinv2.orgs, hinv2.journals, hinv2.conferences,
    hinv2.workshops, hinv2.proceedings, hinv2.journalvolumes⟩

theorem dedupInv_processConferenceVenue {paper pid year venue : JValue}
    {st st' : BuilderState} (hinv : DedupInv st)
    (h : processConferenceVenue paper pid year venue st = .ok st') : DedupInv st' := by
  unfold processConferenceVenue at h
  rw [ebind_ok_iff] at h
  obtain ⟨vid, hvid, h⟩ := h
  rw [ebind_ok_iff] at h
  obtain ⟨st1, hst1, h⟩ := h
  rw [ebind_ok_iff] at h
  obtain ⟨st2, hst2, h⟩ := h
  rw [ebind_ok_iff] at h
  obtain ⟨jdef, hjd, h⟩ := h
  rw [ebind_ok_iff] at h
  obtain ⟨pages, hp, h⟩ := h
  rw [epure_eq_ok] at h
  cases h
  have hinv1 : DedupInv st1 := by
    split at hst1
    · rw [epure_eq_ok] at hst1
      cases hst1
      exact hinv
    · rename_i hmem
      rw [ebind_ok_iff] at hst1
      obtain ⟨vname, _, hst1⟩ := hst1
      rw [ebind_ok_iff] at hst1
      obtain ⟨vurl, _, hst1⟩ := hst1
      rw [ebind_ok_iff] at hst1
      obtain ⟨alts, _, hst1⟩ := hst1
      rw [epure_eq_ok] at hst1
      cases hst1
      exact ⟨hinv.fos, hinv.authors, hinv.orgs, hinv.journals,
        keyedTable_extend hinv.conferences hmem rfl, hinv.workshops,
        hinv.proceedings, hinv.journalvolumes⟩
  have hinv2 : DedupInv st2 := by
    split at hst2
    · rw [epure_eq_ok] at hst2
      cases hst2
      exact hinv1
    · rename_i hmem
      rw [epure_eq_ok] at hst2
      cases hst2
      exact ⟨hinv1.fos, hinv1.authors, hinv1.orgs, hinv1.journals,
        hinv1.conferences, hinv1.workshops,
        keyedTable_extend hinv1.proceedings hmem rfl, hinv1.journalvolumes⟩
  exact ⟨hinv2.fos, hinv2.authors, hinv2.orgs, hinv2.journals, hinv2.conferences,
    hinv2.workshops, hinv2.proceedings, hinv2.journalvolumes⟩

theorem dedupInv_processWorkshopVenue {paper pid year venue : JValue}
    {st st' : BuilderState} (hinv : DedupInv st)
    (h : processWorkshopVenue paper pid year venue st = .ok st') : DedupInv st' := by
  unfold processWorkshopVenue at h
  rw [ebind_ok_iff] at h
  obtain ⟨vid, hvid, h⟩ := h
  rw [ebind_ok_iff] at h
  obtain ⟨st1, hst1, h⟩ := h
  rw [ebind_ok_iff] at h
  obtain ⟨st2, hst2, h⟩ := h
  rw [ebind_ok_iff] at h
  obtain ⟨jdef, hjd, h⟩ := h
  rw [ebind_ok_iff] at h
  obtain ⟨pages, hp, h⟩ := h
  rw [epure_eq_ok] at h
  cases h
  have hinv1 : DedupInv st1 := by
    split at hst1
    · rw [epure_eq_ok] at hst1
      cases hst1
      exact hinv
    · rename_i hmem
      rw [ebind_ok_iff] at hst1
      obtain ⟨vname, _, hst1⟩ := hst1
      rw [ebind_ok_iff] at hst1
      obtain ⟨vurl, _, hst1⟩ := hst1
      rw [ebind_ok_iff] at hst1
      obtain ⟨alts, _, hst1⟩ := hst1
      rw [epure_eq_ok] at hst1
      cases hst1
      exact ⟨hinv.fos, hinv.authors, hinv.orgs, hinv.journals, hinv.conferences,
        keyedTable_extend hinv.workshops hmem rfl, hinv.proceedings,
        hinv.journalvolumes⟩
  have hinv2 : DedupInv st2 := by
    split at hst2
    · rw [epure_eq_ok] at hst2
      cases hst2
      exact hinv1
    · rename_i hmem
      rw [ebind_ok_iff] at hst2
      obtain ⟨journal, _, hst2⟩ := hst2
      rw [ebind_ok_iff] at hst2
      obtain ⟨city, _, hst2⟩ := hst2
      rw [epure_eq_ok] at hst2
      cases hst2
      exact ⟨hinv1.fos, hinv1.authors, hinv1.orgs, hinv1.journals,
        hinv1.conferences, hinv1.workshops,
        keyedTable_extend hinv1.proceedings hmem rfl, hinv1.journalvolumes⟩
  exact ⟨hinv2.fos, hinv2.authors, hinv2.orgs, hinv2.journals, hinv2.conferences,
    hinv2.workshops, hinv2.proceedings, hinv2.journalvolumes⟩

theorem dedupInv_processVenue {paper pid year venue : JValue}
    {st st' : BuilderState} (hinv : DedupInv st)
    (h : processVenue paper pid year venue st = .ok st') : DedupInv st' := by
  unfold processVenue at h
  rw [ebind_ok_iff] at h
  obtain ⟨vtype, hvt, h⟩ := h
  rw [ebind_ok_iff] at h
  obtain ⟨st1, hst1, h⟩ := h
  rw [ebind_ok_iff] at h
  obtain ⟨st2, hst2, h⟩ := h
  have hinv1 : DedupInv st1 := by
    split at hst1
    · exact dedupInv_processJournalVenue hinv hst1
    · rw [epure_eq_ok] at hst1
      cases hst1
      exact hinv
  have hinv2 : DedupInv st2 := by
    split at hst2
    · exact dedupInv_processConferenceVenue hinv1 hst2
    · rw [epure_eq_ok] at hst2
      cases hst2
      exact hinv1
  split at h
  · exact dedupInv_processWorkshopVenue hinv2 h
  · rw [epure_eq_ok] at h
    cases h
    exact hinv2

theorem dedupInv_processPaper {st st' : BuilderState} {paper : JValue}
    (hinv : DedupInv st) (h : processPaper st paper = .ok st') : DedupInv st' := by
  obtain ⟨pid, purl, ptitle, pabstract, pyear, popen, ppdf, ptypes, pembed,
    ptldr, fosv, fosList, authv, auths, st2, a, rest, maid, venue, hpid, _, _,
    _, _, _, _, _, _, _, _, hfosList, _, hauths, hcons, hst2, hmaid, hvenue,
    hproc⟩ := processPaper_ok_shape h
  have hinv0 : DedupInv { st with
      papersRows := st.papersRows ++
        [[("paperID", pid), ("url", purl), ("title", ptitle),
          ("abstract", pabstract), ("year", pyear), ("isOpenAccess", popen),
          ("openAccessPDFUrl", ppdf), ("publicationTypes", ptypes),
          ("embedding", JValue.str (jdumps pembed)), ("tldr", ptldr)]] } :=
    ⟨hinv.fos, hinv.authors, hinv.orgs, hinv.journals, hinv.conferences,
     hinv.workshops, hinv.proceedings, hinv.journalvolumes⟩
  have hinv1 := @dedupInv_foldl_processFos pid fosList _ hinv0
  have hinv2 := dedupInv_processAuthorList hinv1 hst2
  have hinv3 : DedupInv { st2 with
      mainauthorRows := st2.mainauthorRows ++ [[("paperID", pid), ("authorID", maid)]] } :=
    ⟨hinv2.fos, hinv2.authors, hinv2.orgs, hinv2.journals, hinv2.conferences,
     hinv2.workshops, hinv2.proceedings, hinv2.journalvolumes⟩
  exact dedupInv_processVenue hinv3 hproc

theorem dedupInv_processPapers :
    ∀ {ps : List JValue} {st st' : BuilderState},
    DedupInv st → processPapers st ps = .ok st' → DedupInv st' := by
  intro ps
  induction ps with
  | nil =>
    intro st st' hinv h
    unfold processPapers at h
    cases h
    exact hinv
  | cons p rest ih =>
    intro st st' hinv h
    unfold processPapers at h
    rw [ebind_ok_iff] at h
    obtain ⟨st1, hst1, h⟩ := h
    exact ih (dedupInv_processPaper hinv hst1) h

/-- C4, amended: every node type except Publication is deduplicated — for a
whole run each deduplicated table holds exactly one row per first-seen key
(its key column, in order, is the duplicate-free list of seen keys), so the
key columns of the FieldOfStudy / Author / Organization / Journal /
Conference / Workshop tables contain no duplicates; Publication rows, by
contrast, are written once per input record with no dedup set, so a repeated
record yields repeated Publication rows with the same key. -/
theorem dedup_nonpublication_nodes {ps : List JValue} {st' : BuilderState}
    (h : processPapers initState ps = .ok st') :
    DedupInv st' ∧
    (st'.fieldsofstudyRows.map (fun r => r.lookup "name")).Nodup ∧
    (st'.authorsRows.map (fun r => r.lookup "authorID")).Nodup ∧
    (st'.organizationsRows.map (fun r => r.lookup "name")).Nodup ∧
    (st'.journalsRows.map (fun r => r.lookup "journalID")).Nodup ∧
    (st'.conferencesRows.map (fun r => r.lookup "conferenceID")).Nodup ∧
    (st'.workshopsRows.map (fun r => r.lookup "workshopID")).Nodup := by
  have hinv := dedupInv_processPapers dedupInv_init h
  have hsome : Function.Injective (fun k : JValue => some (id k)) :=
    fun a b hab => by simpa using hab
  refine ⟨hinv, ?_, ?_, ?_, ?_, ?_, ?_⟩
  · rw [hinv.fos.2]
    exact List.Nodup.map hsome hinv.fos.1
  · rw [hinv.authors.2]
    exact List.Nodup.map hsome hinv.authors.1
  · rw [hinv.orgs.2]
    exact List.Nodup.map hsome hinv.orgs.1
  · rw [hinv.journals.2]
    exact List.Nodup.map hsome hinv.journals.1
  · rw [hinv.conferences.2]
    exact List.Nodup.map hsome hinv.conferences.1
  · rw [hinv.workshops.2]
    exact List.Nodup.map hsome hinv.workshops.1

/-- Witness for the amended C4 theorem: streaming the same record twice keeps
every deduplicated table at one row while the Publication table gets two. -/
theorem dedup_nonpublication_nodes_example :
    DedupInv dupResult ∧
    (dupResult.fieldsofstudyRows.map (fun r => r.lookup "name")).Nodup ∧
    (dupResult.authorsRows.map (fun r => r.lookup "authorID")).Nodup ∧
    (dupResult.organizationsRows.map (fun r => r.lookup "name")).Nodup ∧
    (dupResult.journalsRows.map (fun r => r.lookup "journalID")).Nodup ∧
    (dupResult.conferencesRows.map (fun r => r.lookup "conferenceID")).Nodup ∧
    (dupResult.workshopsRows.map (fun r => r.lookup "workshopID")).Nodup :=
  @dedup_nonpublication_nodes [plainPaper, plainPaper] dupResult rfl

